import Mathlib

/-!
Verification of the Modbus pattern-transfer layer of `main.py`
(winus-pwm16ch).

The embedded code is `ModbusController.write_pattern_data`,
`ModbusController.start_pattern`, `ModbusController.stop_pattern`
(src/main.py lines 126-170), and the connection guards of
`MainWindow.save_to_board` / `MainWindow.run_board`
(src/main.py lines 413-417 and 446-450).

Modelling choices:
  - a register write is a pair of natural numbers (address, value),
    mirroring `self.instrument.write_register(addr, value)`;
  - the Modbus instrument is modelled as an oracle `Transport` giving,
    for each write attempt index, either success (`none`) or the Python
    exception (`some e`) that `write_register` raises at that attempt
    (transport error, protocol error, or value-conversion error);
  - a Python function that returns `True` or raises becomes a Lean
    function returning the list of writes actually completed together
    with `Except String Bool`; the `except Exception as e: raise
    Exception(...)` wrapper of the source becomes re-packaging the
    underlying error message under the source's fixed Korean text.
-/

set_option autoImplicit false

/-- A single holding-register write: `(16-bit address, 16-bit value)`.
The unit of transport; corresponds to one `write_register` call. -/
structure RegisterWrite where
  addr : Nat
  value : Nat
deriving DecidableEq, Repr

/-- The writes produced for one pattern row, from src/main.py line 141-144:
`for col_idx, value in enumerate(row): register_address = base_address +
(row_idx * len(row)) + col_idx; write_register(register_address, int(value))`.
Note the source uses the CURRENT row's own length `len(row)` as the stride. -/
def rowWrites (base r : Nat) (row : List Nat) : List RegisterWrite :=
  (List.range row.length).map fun c => ⟨base + r * row.length + c, row.getD c 0⟩

/-- The loop `for row_idx, row in enumerate(pattern_data)` of
src/main.py line 140, carrying the running row index. -/
def dataWritesAux (base : Nat) : Nat → List (List Nat) → List RegisterWrite
  | _, [] => []
  | r, row :: rest => rowWrites base r row ++ dataWritesAux base (r + 1) rest

/-- All data-region writes of `write_pattern_data` (row index starts at 0). -/
def dataWrites (base : Nat) (pattern : List (List Nat)) : List RegisterWrite :=
  dataWritesAux base 0 pattern

/-- The complete ordered write sequence of
`ModbusController.write_pattern_data(save_location, pattern_data)`
(src/main.py lines 126-148): location register `0x0`, row-count register
`0x1`, the data region from `0x2`, and — only when `save_location == 0` —
the run trigger `write_register(1000, 1)`. -/
def write_pattern_data_writes (save_location : Nat) (pattern_data : List (List Nat)) :
    List RegisterWrite :=
  ⟨0x0, save_location⟩ :: ⟨0x1, pattern_data.length⟩ ::
    (dataWrites 0x2 pattern_data ++
      if save_location = 0 then [⟨1000, 1⟩] else [])

/-- The exceptions `minimalmodbus.write_register` can raise: transport
failures (serial/IO), protocol failures (malformed device response), and
value-conversion failures (`int(value)` / register range). Each carries
its Python message `str(e)`. -/
inductive PyError where
  | transportError (m : String)
  | protocolError (m : String)
  | valueError (m : String)
  | otherError (m : String)
deriving DecidableEq, Repr

/-- `str(e)`: the message of the underlying exception. -/
def PyError.msg : PyError → String
  | .transportError m | .protocolError m | .valueError m | .otherError m => m

/-- The instrument as an oracle: the outcome of the k-th write attempt of
one operation (`none` = the write succeeds, `some e` = it raises `e`). -/
abbrev Transport := Nat → Option PyError

/-- Issue a write sequence one register at a time, starting at attempt
index `k`: each completed write is recorded; the first raised exception
aborts the rest of the sequence (the source's `try` block leaves the loop
at the first raise — no retry, no rollback). -/
def runWrites (t : Transport) : List RegisterWrite → Nat → List RegisterWrite × Option PyError
  | [], _ => ([], none)
  | w :: ws, k =>
    match t k with
    | some e => ([], some e)
    | none =>
      let p := runWrites t ws (k + 1)
      (w :: p.1, p.2)

/-- `ModbusController.write_pattern_data` (src/main.py lines 126-150):
issues the encoded sequence; returns `True` on success; on any raised
exception re-raises a generic `Exception` whose message is the original
message behind the fixed text of line 150. -/
def write_pattern_data (t : Transport) (save_location : Nat)
    (pattern_data : List (List Nat)) : List RegisterWrite × Except String Bool :=
  let p := runWrites t (write_pattern_data_writes save_location pattern_data) 0
  match p.2 with
  | none => (p.1, Except.ok true)
  | some e => (p.1, Except.error ("데이터 전송 중 오류 발생: " ++ e.msg))

/-- The two writes of `ModbusController.start_pattern` (src/main.py
lines 152-159): pattern number to `0x2000`, then start flag `1` to `0x2001`. -/
def start_pattern_writes (pattern_number : Nat) : List RegisterWrite :=
  [⟨0x2000, pattern_number⟩, ⟨0x2001, 1⟩]

/-- `ModbusController.start_pattern` (src/main.py lines 152-161). -/
def start_pattern (t : Transport) (pattern_number : Nat) :
    List RegisterWrite × Except String Bool :=
  let p := runWrites t (start_pattern_writes pattern_number) 0
  match p.2 with
  | none => (p.1, Except.ok true)
  | some e => (p.1, Except.error ("패턴 실행 중 오류 발생: " ++ e.msg))

/-- The single write of `ModbusController.stop_pattern` (src/main.py
lines 163-170): stop flag `0` to `0x2001`. -/
def stop_pattern_writes : List RegisterWrite :=
  [⟨0x2001, 0⟩]

/-- `ModbusController.stop_pattern` (src/main.py lines 163-170). -/
def stop_pattern (t : Transport) : List RegisterWrite × Except String Bool :=
  let p := runWrites t stop_pattern_writes 0
  match p.2 with
  | none => (p.1, Except.ok true)
  | some e => (p.1, Except.error ("패턴 정지 중 오류 발생: " ++ e.msg))

/-- `MainWindow.save_to_board` (src/main.py lines 413-444), reduced to its
protocol content: `self.modbus_controller` is `none` when no board is
connected; the guard of lines 415-417 reports the not-connected message
and returns before any Modbus traffic; otherwise the grid (with the slot
chosen in the dialog) is handed to `write_pattern_data`. -/
def save_to_board (modbus_controller : Option Transport) (slot : Nat)
    (df : List (List Nat)) : List RegisterWrite × Except String Bool :=
  match modbus_controller with
  | none => ([], Except.error "보드가 연결되어 있지 않습니다.")
  | some t => write_pattern_data t slot df

/-- `MainWindow.run_board` (src/main.py lines 446-474): same guard
(lines 448-450), then `write_pattern_data(0, data_list)` — slot fixed to 0. -/
def run_board (modbus_controller : Option Transport)
    (df : List (List Nat)) : List RegisterWrite × Except String Bool :=
  match modbus_controller with
  | none => ([], Except.error "보드가 연결되어 있지 않습니다.")
  | some t => write_pattern_data t 0 df

/-- Replay a write sequence into a register-indexed map: each write
overwrites the value at its address (later writes win). -/
def replay (ws : List RegisterWrite) (m : Nat → Option Nat) : Nat → Option Nat :=
  ws.foldl (fun acc w => fun a => if a = w.addr then some w.value else acc a) m

/-- A transport whose third write attempt (index 2) raises a serial
timeout; every other attempt succeeds. Used as a concrete failing run. -/
def tFail2 : Transport :=
  fun k => if k = 2 then some (PyError.transportError "timeout") else none

/-! ### Helper lemmas -/

theorem runWrites_ok (t : Transport) (h : ∀ j, t j = none) :
    ∀ (ws : List RegisterWrite) (k : Nat), runWrites t ws k = (ws, none) := by
  intro ws
  induction ws with
  | nil => intro k; rfl
  | cons w ws ih =>
    intro k
    simp [runWrites, h k, ih (k + 1)]

theorem runWrites_fail (t : Transport) (e : PyError) :
    ∀ (ws : List RegisterWrite) (n k : Nat),
      (∀ j, j < k → t (n + j) = none) → t (n + k) = some e →
      k < ws.length →
      runWrites t ws n = (ws.take k, some e) := by
  intro ws
  induction ws with
  | nil =>
    intro n k _ _ hlen
    exact absurd hlen (by simp)
  | cons w ws ih =>
    intro n k hb hk hlen
    cases k with
    | zero =>
      have h0 : t n = some e := by simpa using hk
      simp [runWrites, h0]
    | succ k' =>
      have h0 : t n = none := by simpa using hb 0 (Nat.succ_pos k')
      have hb' : ∀ j, j < k' → t (n + 1 + j) = none := by
        intro j hj
        have h := hb (j + 1) (by omega)
        rw [show n + (j + 1) = n + 1 + j by omega] at h
        exact h
      have hk' : t (n + 1 + k') = some e := by
        rw [show n + 1 + k' = n + (k' + 1) by omega]
        exact hk
      have hlen' : k' < ws.length := by simpa using hlen
      simp [runWrites, h0, ih (n + 1) k' hb' hk' hlen']

theorem rowWrites_length (b r : Nat) (row : List Nat) :
    (rowWrites b r row).length = row.length := by
  simp [rowWrites]

theorem dataWritesAux_length (b W : Nat) :
    ∀ (pattern : List (List Nat)) (k : Nat),
      (∀ row ∈ pattern, row.length = W) →
      (dataWritesAux b k pattern).length = pattern.length * W := by
  intro pattern
  induction pattern with
  | nil => intro k _; simp [dataWritesAux]
  | cons row rest ih =>
    intro k hW
    have hrow : row.length = W := hW row (by simp)
    have hrest : ∀ x ∈ rest, x.length = W := fun x hx => hW x (by simp [hx])
    simp only [dataWritesAux, List.length_append, rowWrites_length, hrow,
      ih (k + 1) hrest, List.length_cons]
    ring

theorem dataWritesAux_getElem (b W : Nat) :
    ∀ (pattern : List (List Nat)) (k r c : Nat),
      (∀ row ∈ pattern, row.length = W) →
      r < pattern.length → c < W →
      (dataWritesAux b k pattern)[r * W + c]? =
        some ⟨b + (k + r) * W + c, (pattern.getD r []).getD c 0⟩ := by
  intro pattern
  induction pattern with
  | nil => intro k r c _ hr _; simp at hr
  | cons row rest ih =>
    intro k r c hW hr hc
    have hrow : row.length = W := hW row (by simp)
    have hrest : ∀ x ∈ rest, x.length = W := fun x hx => hW x (by simp [hx])
    cases r with
    | zero =>
      simp only [Nat.zero_mul, Nat.zero_add, Nat.add_zero, List.getD_cons_zero]
      have hlt : c < (rowWrites b k row).length := by
        rw [rowWrites_length, hrow]; exact hc
      simp only [dataWritesAux]
      rw [List.getElem?_append, if_pos hlt]
      simp only [rowWrites, List.getElem?_map]
      rw [List.getElem?_range (show c < row.length by rw [hrow]; exact hc)]
      simp only [Option.map_some']
      rw [hrow]
    | succ r' =>
      have hr' : r' < rest.length := by simpa using hr
      have hge : (rowWrites b k row).length ≤ (r' + 1) * W + c := by
        rw [rowWrites_length, hrow, Nat.succ_mul]
        omega
      simp only [dataWritesAux]
      rw [List.getElem?_append_right hge, rowWrites_length, hrow]
      rw [show (r' + 1) * W + c - W = r' * W + c by rw [Nat.succ_mul]; omega]
      rw [ih (k + 1) r' c hrest hr' hc]
      rw [show k + 1 + r' = k + (r' + 1) by omega]
      simp [List.getD_cons_succ]

theorem dataWritesAux_map_addr (b W : Nat) :
    ∀ (pattern : List (List Nat)) (k : Nat),
      (∀ row ∈ pattern, row.length = W) →
      (dataWritesAux b k pattern).map RegisterWrite.addr
        = List.range' (b + k * W) (pattern.length * W) := by
  intro pattern
  induction pattern with
  | nil => intro k _; simp [dataWritesAux]
  | cons row rest ih =>
    intro k hW
    have hrow : row.length = W := hW row (by simp)
    have hrest : ∀ x ∈ rest, x.length = W := fun x hx => hW x (by simp [hx])
    have h1 : (rowWrites b k row).map RegisterWrite.addr
        = List.range' (b + k * W) W := by
      simp only [rowWrites, List.map_map]
      have h2 : (RegisterWrite.addr ∘ fun c =>
          (⟨b + k * row.length + c, row.getD c 0⟩ : RegisterWrite))
          = fun c => (b + k * row.length) + c := rfl
      rw [h2, ← List.range'_eq_map_range, hrow]
    simp only [dataWritesAux, List.map_append, h1, ih (k + 1) hrest]
    rw [show b + (k + 1) * W = (b + k * W) + 1 * W by ring]
    rw [List.range'_append]
    congr 1
    simp [Nat.succ_mul]

theorem dataWritesAux_addr_ge (b W : Nat) :
    ∀ (pattern : List (List Nat)) (k : Nat),
      (∀ row ∈ pattern, row.length = W) →
      ∀ w ∈ dataWritesAux b k pattern, b + k * W ≤ w.addr := by
  intro pattern
  induction pattern with
  | nil => intro k _ w hw; simp [dataWritesAux] at hw
  | cons row rest ih =>
    intro k hW w hw
    have hrow : row.length = W := hW row (by simp)
    have hrest : ∀ x ∈ rest, x.length = W := fun x hx => hW x (by simp [hx])
    simp only [dataWritesAux, List.mem_append] at hw
    rcases hw with hw | hw
    · simp only [rowWrites, List.mem_map, List.mem_range] at hw
      obtain ⟨c, _, rfl⟩ := hw
      show b + k * W ≤ b + k * row.length + c
      rw [hrow]
      omega
    · have h1 := ih (k + 1) hrest w hw
      have h2 : k * W + W = (k + 1) * W := (Nat.succ_mul k W).symm
      omega

theorem replay_cons (w : RegisterWrite) (ws : List RegisterWrite) (m : Nat → Option Nat) :
    replay (w :: ws) m
      = replay ws (fun a => if a = w.addr then some w.value else m a) :=
  rfl

theorem replay_singleton (w : RegisterWrite) (m : Nat → Option Nat) (a : Nat) :
    replay [w] m a = if a = w.addr then some w.value else m a :=
  rfl

theorem replay_append (l₁ l₂ : List RegisterWrite) (m : Nat → Option Nat) :
    replay (l₁ ++ l₂) m = replay l₂ (replay l₁ m) := by
  simp [replay, List.foldl_append]

theorem replay_not_mem :
    ∀ (ws : List RegisterWrite) (m : Nat → Option Nat) (a : Nat),
      (∀ w ∈ ws, w.addr ≠ a) → replay ws m a = m a := by
  intro ws
  induction ws with
  | nil => intro m a _; rfl
  | cons w ws ih =>
    intro m a h
    have h1 : w.addr ≠ a := h w (by simp)
    have h2 : ∀ x ∈ ws, x.addr ≠ a := fun x hx => h x (by simp [hx])
    rw [replay_cons, ih _ a h2]
    simp [Ne.symm h1]

theorem replay_range_map (s : Nat) (f : Nat → Nat) :
    ∀ (n : Nat) (m : Nat → Option Nat) (c : Nat), c < n →
      replay ((List.range n).map fun j => (⟨s + j, f j⟩ : RegisterWrite)) m (s + c)
        = some (f c) := by
  intro n
  induction n with
  | zero => intro m c hc; exact absurd hc (Nat.not_lt_zero c)
  | succ n ih =>
    intro m c hc
    simp only [List.range_succ, List.map_append, List.map_cons, List.map_nil]
    rw [replay_append, replay_singleton]
    by_cases hcn : c = n
    · subst hcn; simp
    · have hne : s + c ≠ s + n := by omega
      rw [if_neg hne]
      exact ih m c (by omega)

theorem replay_dataWritesAux (b W : Nat) :
    ∀ (pattern : List (List Nat)) (k r c : Nat) (m : Nat → Option Nat),
      (∀ row ∈ pattern, row.length = W) →
      r < pattern.length → c < W →
      replay (dataWritesAux b k pattern) m (b + (k + r) * W + c)
        = some ((pattern.getD r []).getD c 0) := by
  intro pattern
  induction pattern with
  | nil => intro k r c m _ hr _; simp at hr
  | cons row rest ih =>
    intro k r c m hW hr hc
    have hrow : row.length = W := hW row (by simp)
    have hrest : ∀ x ∈ rest, x.length = W := fun x hx => hW x (by simp [hx])
    simp only [dataWritesAux]
    rw [replay_append]
    cases r with
    | zero =>
      have haddr : b + (k + 0) * W + c = (b + k * row.length) + c := by
        rw [hrow]; ring
      rw [haddr]
      have hnm : ∀ w ∈ dataWritesAux b (k + 1) rest,
          w.addr ≠ (b + k * row.length) + c := by
        intro w hw
        have h1 := dataWritesAux_addr_ge b W rest (k + 1) hrest w hw
        have h2 : k * W + W = (k + 1) * W := (Nat.succ_mul k W).symm
        rw [hrow]
        omega
      rw [replay_not_mem _ _ _ hnm]
      simp only [rowWrites]
      rw [replay_range_map (b + k * row.length) (fun j => row.getD j 0)
        row.length m c (by rw [hrow]; exact hc)]
      simp
    | succ r' =>
      have hr' : r' < rest.length := by simpa using hr
      rw [show b + (k + (r' + 1)) * W + c = b + ((k + 1) + r') * W + c by ring]
      rw [ih (k + 1) r' c (replay (rowWrites b k row) m) hrest hr' hc]
      simp

theorem write_pattern_data_writes_getLast_zero (pattern : List (List Nat)) :
    (write_pattern_data_writes 0 pattern).getLast? = some ⟨1000, 1⟩ := by
  show (((⟨0x0, 0⟩ : RegisterWrite) :: (⟨0x1, pattern.length⟩ : RegisterWrite)
      :: dataWrites 0x2 pattern) ++ [(⟨1000, 1⟩ : RegisterWrite)]).getLast?
      = some ⟨1000, 1⟩
  exact List.getLast?_concat _

theorem getD_replicate_of_lt (n m a d : Nat) (h : m < n) :
    (List.replicate n a).getD m d = a := by
  rw [List.getD_eq_getElem?_getD]
  rw [List.getElem?_eq_getElem (by simpa using h)]
  simp

/-! ### Claim theorems -/

/-- Claim C1: for a pattern whose rows all have width `W` (row count `R`),
`write_pattern_data` with slot `s` and a fault-free transport issues the
whole encoded sequence: exactly `2 + R*W` writes for `s ≠ 0` and `3 + R*W`
for `s = 0`; the first two writes are `(0x0, s)` and `(0x1, R)`; the data
region occupies positions 2 onward in row-major order with strictly
increasing addresses `0x2 + r*W + c` (listed by `List.range'`), holding the
cell values; and for `s = 0` only, the run-trigger write ends the sequence. -/
theorem write_pattern_data_write_count_and_order
    (s W : Nat) (pattern : List (List Nat))
    (hW : ∀ row ∈ pattern, row.length = W) :
    (write_pattern_data (fun _ => none) s pattern).1
        = write_pattern_data_writes s pattern
  ∧ (write_pattern_data_writes s pattern).length
        = (if s = 0 then 3 else 2) + pattern.length * W
  ∧ (write_pattern_data_writes s pattern).take 2
        = [⟨0x0, s⟩, ⟨0x1, pattern.length⟩]
  ∧ (((write_pattern_data_writes s pattern).drop 2).take
        (pattern.length * W)).map RegisterWrite.addr
        = List.range' 0x2 (pattern.length * W)
  ∧ (∀ r c, r < pattern.length → c < W →
      ((write_pattern_data_writes s pattern).drop 2)[r * W + c]?
        = some ⟨0x2 + r * W + c, (pattern.getD r []).getD c 0⟩)
  ∧ (s = 0 → (write_pattern_data_writes s pattern).getLast? = some ⟨1000, 1⟩) := by
  have hd : (dataWrites 0x2 pattern).length = pattern.length * W :=
    dataWritesAux_length 0x2 W pattern 0 hW
  have hok := runWrites_ok (fun _ => none) (fun _ => rfl)
    (write_pattern_data_writes s pattern) 0
  refine ⟨?_, ?_, ?_, ?_, ?_, ?_⟩
  · simp [write_pattern_data, hok]
  · by_cases hs : s = 0
    · subst hs
      simp [write_pattern_data_writes, hd]
      try omega
    · simp [write_pattern_data_writes, hs, hd]
      try omega
  · rfl
  · show ((dataWrites 0x2 pattern ++
        if s = 0 then [(⟨1000, 1⟩ : RegisterWrite)] else []).take
        (pattern.length * W)).map RegisterWrite.addr
        = List.range' 0x2 (pattern.length * W)
    rw [List.take_left' hd]
    have h := dataWritesAux_map_addr 0x2 W pattern 0 hW
    simpa using h
  · intro r c hr hc
    have hidx : r * W + c < (dataWrites 0x2 pattern).length := by
      rw [hd]
      calc r * W + c < r * W + W := by omega
        _ = (r + 1) * W := (Nat.succ_mul r W).symm
        _ ≤ pattern.length * W := Nat.mul_le_mul_right W hr
    show (dataWrites 0x2 pattern ++
        if s = 0 then [(⟨1000, 1⟩ : RegisterWrite)] else [])[r * W + c]?
        = some ⟨0x2 + r * W + c, (pattern.getD r []).getD c 0⟩
    rw [List.getElem?_append, if_pos hidx]
    have h := dataWritesAux_getElem 0x2 W pattern 0 r c hW hr hc
    simpa using h
  · intro hs
    subst hs
    exact write_pattern_data_writes_getLast_zero pattern

/-- Witness for C1: the spec's scenario `[[1,2,3,10],[4,5,6,20]]`, `W = 4`,
slot `2`. -/
theorem write_pattern_data_write_count_and_order_witness :
    (∀ row ∈ ([[1, 2, 3, 10], [4, 5, 6, 20]] : List (List Nat)), row.length = 4)
  ∧ ((write_pattern_data (fun _ => none) 2 [[1, 2, 3, 10], [4, 5, 6, 20]]).1
        = write_pattern_data_writes 2 [[1, 2, 3, 10], [4, 5, 6, 20]]
    ∧ (write_pattern_data_writes 2 [[1, 2, 3, 10], [4, 5, 6, 20]]).length
        = (if 2 = 0 then 3 else 2)
            + ([[1, 2, 3, 10], [4, 5, 6, 20]] : List (List Nat)).length * 4
    ∧ (write_pattern_data_writes 2 [[1, 2, 3, 10], [4, 5, 6, 20]]).take 2
        = [⟨0x0, 2⟩, ⟨0x1, ([[1, 2, 3, 10], [4, 5, 6, 20]] : List (List Nat)).length⟩]
    ∧ (((write_pattern_data_writes 2 [[1, 2, 3, 10], [4, 5, 6, 20]]).drop 2).take
          (([[1, 2, 3, 10], [4, 5, 6, 20]] : List (List Nat)).length * 4)).map
          RegisterWrite.addr
        = List.range' 0x2 (([[1, 2, 3, 10], [4, 5, 6, 20]] : List (List Nat)).length * 4)
    ∧ (∀ r c, r < ([[1, 2, 3, 10], [4, 5, 6, 20]] : List (List Nat)).length → c < 4 →
        ((write_pattern_data_writes 2 [[1, 2, 3, 10], [4, 5, 6, 20]]).drop 2)[r * 4 + c]?
          = some ⟨0x2 + r * 4 + c,
              (([[1, 2, 3, 10], [4, 5, 6, 20]] : List (List Nat)).getD r []).getD c 0⟩)
    ∧ ((2 : Nat) = 0 →
        (write_pattern_data_writes 2 [[1, 2, 3, 10], [4, 5, 6, 20]]).getLast?
          = some ⟨1000, 1⟩)) :=
  ⟨by decide,
   write_pattern_data_write_count_and_order 2 4 [[1, 2, 3, 10], [4, 5, 6, 20]] (by decide)⟩

/-- Claim C5: with no connected controller (`modbus_controller` is `none` —
the only non-connected connection state the source has; it has no `Busy`
state, the UI being single-threaded and blocking), both board entry points
report the not-connected message and issue zero register writes.
`stop_pattern` has no caller in the source, so no call to it can occur in
any state. -/
theorem board_guard_not_connected (slot : Nat) (df : List (List Nat)) :
    save_to_board none slot df
        = ([], Except.error "보드가 연결되어 있지 않습니다.")
  ∧ run_board none df
        = ([], Except.error "보드가 연결되어 있지 않습니다.") :=
  ⟨rfl, rfl⟩

/-- Claim C6: if the k-th register write of `write_pattern_data` raises an
error (all earlier attempts succeeding), then exactly the first k writes
were issued — nothing after position k, no retry, no rollback — and the
error is returned synchronously to the caller. -/
theorem write_pattern_data_fail_fast (t : Transport) (s k : Nat)
    (pattern : List (List Nat)) (e : PyError)
    (hbefore : ∀ j, j < k → t j = none) (hfail : t k = some e)
    (hk : k < (write_pattern_data_writes s pattern).length) :
    write_pattern_data t s pattern
      = ((write_pattern_data_writes s pattern).take k,
         Except.error ("데이터 전송 중 오류 발생: " ++ e.msg)) := by
  have hb : ∀ j, j < k → t (0 + j) = none := by simpa using hbefore
  have hf : t (0 + k) = some e := by simpa using hfail
  have h := runWrites_fail t e (write_pattern_data_writes s pattern) 0 k hb hf hk
  simp [write_pattern_data, h]

/-- Witness for C6: a transport that times out at the third write (index 2)
during a store of `[[1,2],[3,4]]` to slot 1: only the location and
row-count writes go out, and the wrapped timeout error is returned. -/
theorem write_pattern_data_fail_fast_witness :
    (∀ j, j < 2 → tFail2 j = none)
  ∧ (tFail2 2 = some (PyError.transportError "timeout"))
  ∧ (2 < (write_pattern_data_writes 1 [[1, 2], [3, 4]]).length)
  ∧ write_pattern_data tFail2 1 [[1, 2], [3, 4]]
      = ((write_pattern_data_writes 1 [[1, 2], [3, 4]]).take 2,
         Except.error ("데이터 전송 중 오류 발생: "
           ++ (PyError.transportError "timeout").msg)) :=
  ⟨by decide, by decide, by decide,
   write_pattern_data_fail_fast tFail2 1 2 [[1, 2], [3, 4]]
     (PyError.transportError "timeout") (by decide) (by decide) (by decide)⟩

/-- Claim C8: `start_pattern n` over a fault-free transport issues exactly
the two writes `(0x2000, n)` then `(0x2001, 1)`, in that order, and this
sequence never contains the store path's run-trigger write `(1000, 1)` —
the two run paths use disjoint registers. -/
theorem start_pattern_two_writes (n : Nat) :
    start_pattern (fun _ => none) n
      = ([⟨0x2000, n⟩, ⟨0x2001, 1⟩], Except.ok true)
  ∧ (⟨1000, 1⟩ : RegisterWrite) ∉ start_pattern_writes n := by
  constructor
  · rfl
  · simp [start_pattern_writes]

/-- Claim C9: the empty pattern is not rejected: `write_pattern_data`
still writes `(0x0, slot)` and `(0x1, 0)`, writes nothing to the data
region, appends `(1000, 1)` exactly when `slot = 0`, and returns success. -/
theorem write_pattern_data_empty_pattern (s : Nat) :
    write_pattern_data (fun _ => none) s []
      = ((⟨0x0, s⟩ : RegisterWrite) :: (⟨0x1, 0⟩ : RegisterWrite) ::
          (if s = 0 then [(⟨1000, 1⟩ : RegisterWrite)] else []), Except.ok true)
  ∧ dataWrites 0x2 ([] : List (List Nat)) = [] := by
  constructor
  · have h := runWrites_ok (fun _ => none) (fun _ => rfl)
      (write_pattern_data_writes s []) 0
    simp only [write_pattern_data, h]
    rfl
  · rfl

/-- Claim C10: whatever the underlying exception is — transport, protocol,
or value-conversion — each of the three operations surfaces it as the same
generic error channel (`Except.error` of a `String`), whose message is the
operation's fixed prefix followed by the original message; the result
depends only on `e.msg`, never on the exception's kind, so the caller
cannot tell a transport error from a protocol error by type. -/
theorem generic_error_wrapping (e : PyError) (s n : Nat)
    (pattern : List (List Nat)) :
    (write_pattern_data (fun _ => some e) s pattern).2
        = Except.error ("데이터 전송 중 오류 발생: " ++ e.msg)
  ∧ (start_pattern (fun _ => some e) n).2
        = Except.error ("패턴 실행 중 오류 발생: " ++ e.msg)
  ∧ (stop_pattern (fun _ => some e)).2
        = Except.error ("패턴 정지 중 오류 발생: " ++ e.msg) :=
  ⟨rfl, rfl, rfl⟩

/-- Claim C2 (amended): for every pattern whose data-region writes do not
themselves contain the pair `(1000, 1)` — in particular any pattern whose
data region stays below address 1000 — the sequence of
`write_pattern_data` contains a write of value 1 to register 1000 iff the
slot is 0, and when present it is the final write. (Unrestricted, the
claim fails: a large pattern's data region reaches address 1000, see the
counterexample.) -/
theorem run_trigger_iff_slot_zero (s : Nat) (pattern : List (List Nat))
    (hnd : (⟨1000, 1⟩ : RegisterWrite) ∉ dataWrites 0x2 pattern) :
    ((⟨1000, 1⟩ : RegisterWrite) ∈ write_pattern_data_writes s pattern ↔ s = 0)
  ∧ (s = 0 →
      (write_pattern_data_writes s pattern).getLast? = some ⟨1000, 1⟩) := by
  constructor
  · constructor
    · intro hmem
      by_contra hs
      simp [write_pattern_data_writes, hs] at hmem
      exact hnd hmem
    · intro hs
      subst hs
      simp [write_pattern_data_writes]
  · intro hs
    subst hs
    exact write_pattern_data_writes_getLast_zero pattern

/-- Witness for C2: pattern `[[1,2],[3,4]]`, slot 0 — the data region
(addresses 2..5) misses register 1000, the trigger write is present and
last. -/
theorem run_trigger_iff_slot_zero_witness :
    ((⟨1000, 1⟩ : RegisterWrite) ∉ dataWrites 0x2 [[1, 2], [3, 4]])
  ∧ (((⟨1000, 1⟩ : RegisterWrite) ∈ write_pattern_data_writes 0 [[1, 2], [3, 4]]
        ↔ (0 : Nat) = 0)
     ∧ ((0 : Nat) = 0 →
        (write_pattern_data_writes 0 [[1, 2], [3, 4]]).getLast? = some ⟨1000, 1⟩)) :=
  ⟨by decide, run_trigger_iff_slot_zero 0 [[1, 2], [3, 4]] (by decide)⟩

/-- Counterexample to C2 as stated: one row of 999 cells all equal to 1,
slot 2. The data write for column 998 lands on address
`0x2 + 0*999 + 998 = 1000` with value 1, so the sequence contains a write
of value 1 to register 1000 although the slot is not 0. -/
theorem run_trigger_containment_counterexample :
    (⟨1000, 1⟩ : RegisterWrite) ∈ write_pattern_data_writes 2 [List.replicate 999 1]
  ∧ (2 : Nat) ≠ 0 := by
  constructor
  · have hW999 : ∀ row ∈ [List.replicate 999 1], row.length = 999 := by
      intro row hrow
      simp only [List.mem_singleton] at hrow
      rw [hrow, List.length_replicate]
    have h0 := dataWritesAux_getElem 0x2 999 [List.replicate 999 1] 0 0 998
      hW999 (by decide) (by omega)
    have e1 : ((([List.replicate 999 1] : List (List Nat))).getD 0 []).getD 998 0
        = 1 := by
      rw [List.getD_cons_zero]
      exact getD_replicate_of_lt 999 998 1 0 (by omega)
    have e2 : (0x2 : Nat) + (0 + 0) * 999 + 998 = 1000 := by omega
    rw [e1, e2] at h0
    have hmem : (⟨1000, 1⟩ : RegisterWrite) ∈ dataWrites 0x2 [List.replicate 999 1] :=
      List.getElem?_mem h0
    exact List.mem_cons_of_mem _ (List.mem_cons_of_mem _ (List.mem_append_left _ hmem))
  · decide

/-- Claim C3 (amended): the source performs no row-width validation —
`write_pattern_data` on a ragged pattern (some row's length differs from
the first row's) does not fail: over a fault-free transport it issues the
whole encoded sequence (each row addressed with its OWN length as stride,
`0x2 + r*len(row_r) + c`) and returns success; no `InvalidPattern` error
exists in the code. -/
theorem ragged_pattern_no_validation (s : Nat) (pattern : List (List Nat))
    (hragged : ∃ row ∈ pattern, row.length ≠ (pattern.headD []).length) :
    write_pattern_data (fun _ => none) s pattern
      = (write_pattern_data_writes s pattern, Except.ok true) := by
  have h := runWrites_ok (fun _ => none) (fun _ => rfl)
    (write_pattern_data_writes s pattern) 0
  simp only [write_pattern_data, h]

/-- Witness for C3: the ragged pattern `[[1,2,3],[4,5]]` is transmitted
without error. -/
theorem ragged_pattern_no_validation_witness :
    (∃ row ∈ ([[1, 2, 3], [4, 5]] : List (List Nat)),
        row.length ≠ (([[1, 2, 3], [4, 5]] : List (List Nat)).headD []).length)
  ∧ write_pattern_data (fun _ => none) 2 [[1, 2, 3], [4, 5]]
      = (write_pattern_data_writes 2 [[1, 2, 3], [4, 5]], Except.ok true) :=
  ⟨by decide, ragged_pattern_no_validation 2 [[1, 2, 3], [4, 5]] (by decide)⟩

/-- Counterexample to C3 as stated: the ragged pattern `[[1,2,3],[4,5]]`
(row widths 3 and 2) is NOT rejected: all writes go out and the call
returns success — note rows 0 and 1 even collide on address 4, because
row 1 is addressed with stride 2. -/
theorem ragged_pattern_counterexample :
    write_pattern_data (fun _ => none) 2 [[1, 2, 3], [4, 5]]
      = ([⟨0x0, 2⟩, ⟨0x1, 2⟩, ⟨0x2, 1⟩, ⟨0x3, 2⟩, ⟨0x4, 3⟩, ⟨0x4, 4⟩, ⟨0x5, 5⟩],
         Except.ok true)
  ∧ ([4, 5] : List Nat).length ≠ ([1, 2, 3] : List Nat).length := by
  constructor
  · rfl
  · decide

/-- Claim C4 (amended): the source performs no slot-range validation —
for EVERY slot value (including values outside the device's observed 0..4
range) the very first register write is `(0x0, slot)` and, over a
fault-free transport, the whole transfer proceeds and succeeds;
no `SlotOutOfRange` error exists in the code (the spec itself records
eager validation as a redesign strengthening, not observed behavior). -/
theorem slot_not_validated (s : Nat) (pattern : List (List Nat)) :
    (write_pattern_data_writes s pattern).head? = some ⟨0x0, s⟩
  ∧ write_pattern_data (fun _ => none) s pattern
      = (write_pattern_data_writes s pattern, Except.ok true) := by
  constructor
  · rfl
  · have h := runWrites_ok (fun _ => none) (fun _ => rfl)
      (write_pattern_data_writes s pattern) 0
    simp only [write_pattern_data, h]

/-- Counterexample to C4 as stated: slot 99 is outside the supported
range 0..4, yet `write_pattern_data` issues all three writes for `[[1]]`
(starting with `(0x0, 99)`) and returns success instead of failing before
any I/O. -/
theorem slot_out_of_range_counterexample :
    4 < 99
  ∧ write_pattern_data (fun _ => none) 99 [[1]]
      = ([⟨0x0, 99⟩, ⟨0x1, 1⟩, ⟨0x2, 1⟩], Except.ok true) := by
  constructor
  · decide
  · rfl

/-- Claim C7 (amended): for a uniform-width pattern with 16-bit cell
values, replaying the encoded write sequence into a register-indexed map
and reading address `0x2 + r*W + c` returns the original cell `(r, c)` —
provided the run-trigger write cannot overwrite the data region, i.e. the
slot is nonzero or the data region (of size `R*W`) stays below address
1000. (Unrestricted, the claim fails for slot 0: see the counterexample.) -/
theorem replay_roundtrip (s W : Nat) (pattern : List (List Nat))
    (hW : ∀ row ∈ pattern, row.length = W)
    (hv : ∀ row ∈ pattern, ∀ v ∈ row, v ≤ 65535)
    (hsafe : s ≠ 0 ∨ pattern.length * W ≤ 998)
    (r c : Nat) (hr : r < pattern.length) (hc : c < W) :
    replay (write_pattern_data_writes s pattern) (fun _ => none) (0x2 + r * W + c)
      = some ((pattern.getD r []).getD c 0) := by
  have hdata : ∀ m : Nat → Option Nat,
      replay (dataWrites 0x2 pattern) m (0x2 + r * W + c)
        = some ((pattern.getD r []).getD c 0) := by
    intro m
    have h := replay_dataWritesAux 0x2 W pattern 0 r c m hW hr hc
    simpa using h
  rw [show write_pattern_data_writes s pattern
      = (⟨0x0, s⟩ : RegisterWrite) :: (⟨0x1, pattern.length⟩ : RegisterWrite) ::
        (dataWrites 0x2 pattern ++
          if s = 0 then [(⟨1000, 1⟩ : RegisterWrite)] else []) from rfl]
  rw [replay_cons, replay_cons, replay_append]
  by_cases hs : s = 0
  · subst hs
    rw [if_pos rfl, replay_singleton]
    have hne : 0x2 + r * W + c ≠ 1000 := by
      rcases hsafe with hs' | hb
      · exact absurd rfl hs'
      · have h1 : r * W + c < pattern.length * W := by
          calc r * W + c < r * W + W := by omega
            _ = (r + 1) * W := (Nat.succ_mul r W).symm
            _ ≤ pattern.length * W := Nat.mul_le_mul_right W hr
        omega
    rw [if_neg hne]
    exact hdata _
  · rw [if_neg hs]
    exact hdata _

/-- Witness for C7: slot 0, pattern `[[1,2],[3,4]]` (W = 2, data region
4 cells, far below register 1000): reading back address `0x2 + 1*2 + 0`
returns the cell at row 1, column 0. -/
theorem replay_roundtrip_witness :
    (∀ row ∈ ([[1, 2], [3, 4]] : List (List Nat)), row.length = 2)
  ∧ (∀ row ∈ ([[1, 2], [3, 4]] : List (List Nat)), ∀ v ∈ row, v ≤ 65535)
  ∧ ((0 : Nat) ≠ 0 ∨ ([[1, 2], [3, 4]] : List (List Nat)).length * 2 ≤ 998)
  ∧ replay (write_pattern_data_writes 0 [[1, 2], [3, 4]]) (fun _ => none)
        (0x2 + 1 * 2 + 0)
      = some ((([[1, 2], [3, 4]] : List (List Nat)).getD 1 []).getD 0 0) :=
  ⟨by decide, by decide, by decide,
   replay_roundtrip 0 2 [[1, 2], [3, 4]] (by decide) (by decide) (by decide)
     1 0 (by decide) (by decide)⟩

/-- Counterexample to C7 as stated: slot 0 with one uniform row of 999
cells, all 7. The cell at row 0, column 998 lives at address
`0x2 + 0*999 + 998 = 1000`; the run-trigger write `(1000, 1)` lands after
it and overwrites it, so reading address 1000 back yields 1, not the
original cell value 7. -/
theorem replay_roundtrip_counterexample :
    replay (write_pattern_data_writes 0 [List.replicate 999 7]) (fun _ => none) 1000
      = some 1
  ∧ (([List.replicate 999 7] : List (List Nat)).getD 0 []).getD 998 0 = 7
  ∧ 0x2 + 0 * 999 + 998 = 1000
  ∧ (1 : Nat) ≠ 7 := by
  refine ⟨?_, ?_, by decide, by decide⟩
  · rw [show write_pattern_data_writes 0 [List.replicate 999 7]
        = ((⟨0x0, 0⟩ : RegisterWrite) :: (⟨0x1, 1⟩ : RegisterWrite) ::
            dataWrites 0x2 [List.replicate 999 7]) ++ [(⟨1000, 1⟩ : RegisterWrite)]
        from rfl]
    rw [replay_append, replay_singleton]
    rw [if_pos rfl]
  · show (List.replicate 999 7).getD 998 0 = 7
    exact getD_replicate_of_lt 999 998 7 0 (by omega)
